import Mathlib

/-!
# Mask Derivation & Verification Pipeline — verification development

Shallow embedding of the mask-preparation scripts:

* `resize_mask.py` — `resize_binary_mask_cv2` (BinaryMaskResampler)
* `mask-generator.py` — the module-level tier loop (ResolutionTierSynthesizer)
* `apply_mask_colorize.py` — `apply_mask_and_colorize` (OverlayColorizer)
* `add_json_mask_paths.py` — `add_mask_paths_to_transforms` (ManifestPathDeriver)
* `pil_to_numpy_debug.py` — `test_mask_conversion` (DecodeDifferentialVerifier)

Images are embedded as matrices of natural-number pixel values (uint8 values
live in `0..255`; overflow never arises in the modelled operations).  File
decoding is external I/O, so fallible decodes enter the model as `Option`
values and per-file decode outcomes as explicit data.
-/

/-- A single-channel raster: `h` rows, `w` columns, `px r c` the pixel value at
row `r`, column `c` (uint8 values in the source; values outside the
`r < h, c < w` range are irrelevant junk). -/
structure GrayMat where
  h : Nat
  w : Nat
  px : Nat → Nat → Nat

/-- A 3-channel (BGR) raster, pixel values as triples. -/
structure ColorMat where
  h : Nat
  w : Nat
  px : Nat → Nat → Nat × Nat × Nat

/-- `cv2.resize(m, (tw, th), interpolation=cv2.INTER_NEAREST)`: each output
pixel is the source pixel at the floor-scaled coordinate, clamped into range
(nearest-neighbour selection, no interpolation). -/
def resizeNearest (m : GrayMat) (tw th : Nat) : GrayMat :=
  ⟨th, tw, fun r c => m.px (min (r * m.h / th) (m.h - 1)) (min (c * m.w / tw) (m.w - 1))⟩

/-- `cv2.threshold(m, 127, 255, cv2.THRESH_BINARY)`: value > 127 becomes 255,
else 0. -/
def cvThreshold127 (m : GrayMat) : GrayMat :=
  ⟨m.h, m.w, fun r c => if m.px r c > 127 then 255 else 0⟩

/-- `cv2.bitwise_not` on a uint8 image: `v ↦ 255 - v` (used only on the
outputs of `cvThreshold127`, whose values are ≤ 255). -/
def cvBitwiseNot (m : GrayMat) : GrayMat :=
  ⟨m.h, m.w, fun r c => 255 - m.px r c⟩

/-! ## `resize_mask.py` — `resize_binary_mask_cv2` -/

/-- The error outcomes of `resize_binary_mask_cv2`: the explicit
`FileNotFoundError` raised when `cv2.imread` returns `None`
(spec: `SourceUnreadable`), and the `cv2.error` raised inside `cv2.resize`
when the requested `dsize` is empty, i.e. either target dimension is ≤ 0
(spec: `InvalidDimensions`). -/
inductive ResizeError where
  | sourceUnreadable
  | invalidDimensions
deriving DecidableEq

/-- `resize_binary_mask_cv2(mask_path, output_path, target_width, target_height)`:
the decode result of `cv2.imread(mask_path, IMREAD_GRAYSCALE)` enters as an
`Option GrayMat` (`none` = undecodable).  Steps, in source order: fail if the
decode returned `None`; threshold at 127 into {0,255}; nearest-neighbour
resize to `(target_width, target_height)` — `cv2.resize` asserts a non-empty
`dsize`, so a non-positive target raises, modelled as `invalidDimensions`.
The resized mask is written out and returned; the returned array is the
model's result. -/
def resize_binary_mask_cv2 (mask : Option GrayMat) (target_width target_height : Int) :
    Except ResizeError GrayMat :=
  match mask with
  | none => .error .sourceUnreadable
  | some m =>
    if target_width ≤ 0 ∨ target_height ≤ 0 then
      .error .invalidDimensions
    else
      .ok (resizeNearest (cvThreshold127 m) target_width.toNat target_height.toNat)

/-! ## `mask-generator.py` — the tier synthesizer -/

/-- One filename's match against a single shell glob pattern `*<ext>` as used
by `glob.glob(os.path.join(dir, "*.jpg"))` etc.: `*` matches any characters of
the name except that a name beginning with `.` is hidden and never matched;
matching is byte-exact, hence case-sensitive on the POSIX filesystems the
script targets. -/
def globDotMatch (ext name : String) : Bool :=
  name.data.head? != some '.' &&
    name.data.reverse.take ext.data.length == ext.data.reverse

/-- `image_files` of `mask-generator.py`: the concatenation
`glob("*.jpg") + glob("*.png") + glob("*.jpeg")` over the tier directory's
listing. -/
def image_files (listing : List String) : List String :=
  listing.filter (globDotMatch ".jpg") ++
    listing.filter (globDotMatch ".png") ++
      listing.filter (globDotMatch ".jpeg")

/-- Whether one filename is enumerated by `image_files` at all (the
disjunction of the three glob patterns). -/
def tierImageMatch (name : String) : Bool :=
  globDotMatch ".jpg" name || globDotMatch ".png" name || globDotMatch ".jpeg" name

/-- The spec's §4.2 enumeration rule, stated from the spec's words for
comparison with `image_files`: accepted extensions jpg/jpeg/png compared
case-insensitively. -/
def specTierImageMatch (name : String) : Bool :=
  let l := (name.data.map Char.toLower).reverse
  l.take 4 == ".jpg".data.reverse || l.take 4 == ".png".data.reverse ||
    l.take 5 == ".jpeg".data.reverse

/-- The outcome of `Image.open(img_path)` on one tier image: its decoded
`(width, height)`, or unreadable (in which case `Image.open` raises). -/
inductive ImgRead where
  | ok (w h : Nat)
  | unreadable
deriving DecidableEq

/-- The per-tier loop of `mask-generator.py` (lines 40–61): for each
enumerated image in order, open it to get its size — there is no `try` around
the loop body, so an unreadable image raises `UnidentifiedImageError` and
aborts the whole run — then resize the raw source mask
(`cv2.resize(original_mask, target_size, interpolation=cv2.INTER_NEAREST)`;
the binarization step is commented out in the source) and write it under the
image's filename.  Result: the list of `(filename, mask)` pairs actually
written before any abort, paired with `some failing_filename` if the loop
aborted there. -/
def processTier (original_mask : GrayMat) :
    List (String × ImgRead) → List (String × GrayMat) × Option String
  | [] => ([], none)
  | (name, ImgRead.unreadable) :: _ => ([], some name)
  | (name, ImgRead.ok w h) :: rest =>
    let r := processTier original_mask rest
    ((name, resizeNearest original_mask w h) :: r.1, r.2)

/-! ## `apply_mask_colorize.py` — `apply_mask_and_colorize` -/

/-- The first step of `apply_mask_and_colorize(image_path, mask_path,
output_path, color)` after both decodes succeed (decode failures raise before
this logic): resize the mask to the image's dimensions if they differ
(`cv2.resize(..., interpolation=cv2.INTER_NEAREST)`). -/
def resizeToImage (image : ColorMat) (mask : GrayMat) : GrayMat :=
  if mask.h = image.h ∧ mask.w = image.w then mask
  else resizeNearest mask image.w image.h

/-- The remaining steps of `apply_mask_and_colorize`: binarize at threshold
127, invert with `bitwise_not`, then copy the image and overwrite every pixel
where the inverted mask equals 255 with `color`. -/
def apply_mask_and_colorize (image : ColorMat) (mask : GrayMat)
    (color : Nat × Nat × Nat) : ColorMat :=
  let inverted_mask := cvBitwiseNot (cvThreshold127 (resizeToImage image mask))
  ⟨image.h, image.w, fun r c =>
    if inverted_mask.px r c = 255 then color else image.px r c⟩

/-! ## `pil_to_numpy_debug.py` — `test_mask_conversion` -/

/-- Count of positions `(r, c)` with `r < h`, `c < w` where `p` holds —
`np.sum` of an elementwise comparison over an `h × w` array. -/
def countMismatch (h w : Nat) (p : Nat → Nat → Bool) : Nat :=
  ((List.range h).map (fun r => ((List.range w).filter (fun c => p r c)).length)).sum

/-- `np.sum(std_numpy != custom_numpy)`: raw pixel-level mismatch count
between the two decode paths (computed in the source only when the shapes
agree). -/
def pixel_diff_count (a b : GrayMat) : Nat :=
  countMismatch a.h a.w (fun r c => a.px r c != b.px r c)

/-- `torch.sum(std_bool != custom_bool)`: mismatch count after casting both
arrays to boolean (`value ≠ 0`). -/
def bool_diff_count (a b : GrayMat) : Nat :=
  countMismatch a.h a.w (fun r c => (a.px r c != 0) != (b.px r c != 0))

/-- `np.sum(std_thresh != custom_thresh)` at one threshold `t`: how many
pixels the two decode paths classify differently under the cutoff
`value > t`. -/
def thresh_diff_count (t : Nat) (a b : GrayMat) : Nat :=
  countMismatch a.h a.w (fun r c => decide (a.px r c > t) != decide (b.px r c > t))

/-- The literal threshold list swept by `test_mask_conversion`:
`for threshold in [0, 1, 127, 128, 254, 255]`. -/
def sweep_thresholds : List Nat := [0, 1, 127, 128, 254, 255]

/-! ## `add_json_mask_paths.py` — `add_mask_paths_to_transforms`

The per-frame path computation uses `pathlib.PurePosixPath`:
`Path(file_path).parent / mask_dir / f"{stem}{mask_suffix}{suffix}"`, then
`str(...)`.  `PurePosixPath` parses a path into its non-empty, non-`"."`
components (a leading `/` marks an absolute path; the rare POSIX `//` root is
not modelled) and prints them joined by `/` (printing `"."` for the empty
relative path — a corner the theorems' hypotheses avoid). -/

/-- Split a character list at every `'/'` (boundaries produce empty pieces,
as in `"a//b"` ↦ `["a", "", "b"]`).  Always returns a non-empty list. -/
def splitSlash : List Char → List (List Char)
  | [] => [[]]
  | c :: rest =>
    if c = '/' then [] :: splitSlash rest
    else
      match splitSlash rest with
      | g :: gs => (c :: g) :: gs
      | [] => [[c]]

/-- Join path components with `'/'` (inverse of `splitSlash` on clean
components; also how `str(PurePosixPath(...))` prints a relative path). -/
def joinSlash : List (List Char) → List Char
  | [] => []
  | [p] => p
  | p :: ps => p ++ '/' :: joinSlash ps

/-- `PurePosixPath`'s parsed component list: split at `'/'` and drop empty
and `"."` components. -/
def pathlibParts (s : List Char) : List (List Char) :=
  (splitSlash s).filter (fun p => !p.isEmpty && p ≠ ['.'])

/-- `name.rfind('.')`: index of the last `'.'`, if any. -/
def rfindDot : List Char → Option Nat
  | [] => none
  | c :: rest =>
    match rfindDot rest with
    | some i => some (i + 1)
    | none => if c = '.' then some 0 else none

/-- `PurePosixPath.stem` / `.suffix` on a final component `name`
(CPython: `i = name.rfind('.'); name[:i], name[i:] if 0 < i < len(name)-1
else name, ''`). -/
def stemSuffix (name : List Char) : List Char × List Char :=
  match rfindDot name with
  | some i => if 0 < i ∧ i < name.length - 1 then (name.take i, name.drop i) else (name, [])
  | none => (name, [])

/-- The relative-path body of the mask-path computation:
`Path(file_path).parent / mask_dir / f"{stem}{mask_suffix}{suffix}"` printed
without a root.  `Path(file_path).parent` is the parsed component list minus
its last component; `stem`/`suffix` split that last component; the `/`-join
arguments are themselves parsed by `pathlib`, hence the `pathlibParts` on
them too. -/
def deriveBody (fp dirL sufL : List Char) : List Char :=
  joinSlash ((pathlibParts fp).dropLast
    ++ pathlibParts dirL
    ++ pathlibParts ((stemSuffix ((pathlibParts fp).getLast?.getD [])).1 ++ sufL
        ++ (stemSuffix ((pathlibParts fp).getLast?.getD [])).2))

/-- The mask-path computation inside `add_mask_paths_to_transforms`, on
character lists:
`str(Path(file_path).parent / mask_dir / f"{stem}{mask_suffix}{suffix}")`.
An absolute input path keeps its leading `/` in the printed result. -/
def deriveList (fp dirL sufL : List Char) : List Char :=
  if fp.head? = some '/' then '/' :: deriveBody fp dirL sufL
  else deriveBody fp dirL sufL

/-- The mask-path computation of `add_mask_paths_to_transforms` on strings:
`mask_path = str(parent_dir / mask_dir / f"{filename}{mask_suffix}{extension}")`. -/
def deriveMaskPath (file_path mask_dir mask_suffix : String) : String :=
  String.mk (deriveList file_path.data mask_dir.data mask_suffix.data)

/-- One manifest frame: the `file_path` and `mask_path` string fields it may
carry, plus its remaining (opaque, untouched) attributes. -/
structure Frame where
  file_path : Option String
  mask_path : Option String
  rest : List (String × String)
deriving DecidableEq

/-- The loop body of `add_mask_paths_to_transforms` on one frame: if
`'file_path' in frame`, set `frame['mask_path']` to the derived path;
otherwise leave the frame untouched. -/
def addMaskPathToFrame (mask_dir mask_suffix : String) (frame : Frame) : Frame :=
  match frame.file_path with
  | some fp => { frame with mask_path := some (deriveMaskPath fp mask_dir mask_suffix) }
  | none => frame

/-- A parsed manifest document: the optional `frames` array and the remaining
top-level attributes (opaque, untouched). -/
structure Manifest where
  frames : Option (List Frame)
  rest : List (String × String)
deriving DecidableEq

/-- `add_mask_paths_to_transforms(input, output, mask_dir, mask_suffix)` on an
already-parsed document: iterate `transforms_data.get('frames', [])`, mutate
each frame that has a `file_path`, then write the document to the output
path.  A document without a `frames` key loops over the empty default and is
written unchanged (no `frames` key is added, no error is raised).  The
returned value is the document written out. -/
def add_mask_paths_to_transforms (m : Manifest) (mask_dir mask_suffix : String) : Manifest :=
  { m with frames := m.frames.map (List.map (addMaskPathToFrame mask_dir mask_suffix)) }

/-! ## Demonstration inputs used by the witnesses -/

/-- A 2×2 source mask holding only intermediate gray values
(60, 61, 160, 161) — deliberately not binary. -/
def demoGray : GrayMat := ⟨2, 2, fun r c => 60 + 100 * r + c⟩

/-- A 1×1 BGR image with an arbitrary non-extreme pixel. -/
def demoImage : ColorMat := ⟨1, 1, fun _ _ => (7, 8, 9)⟩

/-- A 1×1 all-foreground (255) mask. -/
def allFg : GrayMat := ⟨1, 1, fun _ _ => 255⟩

/-- A 1×1 all-background (0) mask. -/
def allBg : GrayMat := ⟨1, 1, fun _ _ => 0⟩

/-- A manifest with no `frames` key. -/
def framelessManifest : Manifest := ⟨none, [("camera_model", "OPENCV")]⟩

/-! ## General lemmas -/

/-- Every pixel of a nearest-neighbour resize of a thresholded mask is 0 or
255 (the resize only selects source pixels, and thresholding leaves only the
two sentinels). -/
theorem resizeNearest_threshold_px (m : GrayMat) (tw th r c : Nat) :
    (resizeNearest (cvThreshold127 m) tw th).px r c = 0 ∨
      (resizeNearest (cvThreshold127 m) tw th).px r c = 255 := by
  show (if _ > 127 then 255 else 0) = 0 ∨ (if _ > 127 then 255 else 0) = 255
  split
  · exact Or.inr rfl
  · exact Or.inl rfl

/-- `countMismatch` over a pointwise-false predicate is zero. -/
theorem countMismatch_eq_zero (h w : Nat) (p : Nat → Nat → Bool)
    (hp : ∀ r < h, ∀ c < w, p r c = false) : countMismatch h w p = 0 := by
  unfold countMismatch
  apply List.sum_eq_zero
  intro x hx
  simp only [List.mem_map, List.mem_range] at hx
  obtain ⟨r, hr, rfl⟩ := hx
  rw [List.length_eq_zero, List.filter_eq_nil_iff]
  intro c hc
  rw [List.mem_range] at hc
  simp [hp r hr c hc]

/-- Within the image's bounds, the (possibly resized) mask used by
`apply_mask_and_colorize` reads an in-range pixel of the original mask. -/
theorem resizeToImage_px_mem (image : ColorMat) (mask : GrayMat)
    (hh : 0 < mask.h) (hw : 0 < mask.w) (r c : Nat)
    (hr : r < image.h) (hc : c < image.w) :
    ∃ i j, i < mask.h ∧ j < mask.w ∧
      (resizeToImage image mask).px r c = mask.px i j := by
  unfold resizeToImage
  split
  case isTrue hdim =>
    exact ⟨r, c, hdim.1 ▸ hr, hdim.2 ▸ hc, rfl⟩
  case isFalse =>
    refine ⟨min (r * mask.h / image.h) (mask.h - 1),
            min (c * mask.w / image.w) (mask.w - 1), ?_, ?_, rfl⟩
    · exact lt_of_le_of_lt (min_le_right _ _) (Nat.sub_lt hh one_pos)
    · exact lt_of_le_of_lt (min_le_right _ _) (Nat.sub_lt hw one_pos)

/-- Unfolding equation for the output pixel of `apply_mask_and_colorize`. -/
theorem apply_mask_and_colorize_px (image : ColorMat) (mask : GrayMat)
    (color : Nat × Nat × Nat) (r c : Nat) :
    (apply_mask_and_colorize image mask color).px r c =
      if 255 - (if (resizeToImage image mask).px r c > 127 then 255 else 0) = 255
      then color else image.px r c := rfl

/-- Unfolding equation for `splitSlash` on a cons. -/
theorem splitSlash_cons (c : Char) (rest : List Char) :
    splitSlash (c :: rest) = if c = '/' then [] :: splitSlash rest else
      match splitSlash rest with
      | g :: gs => (c :: g) :: gs
      | [] => [[c]] := rfl

/-- A slash-free chunk splits into itself. -/
theorem splitSlash_no_slash (p : List Char) (hp : '/' ∉ p) :
    splitSlash p = [p] := by
  induction p with
  | nil => rfl
  | cons c rest ih =>
    have hc : c ≠ '/' := fun h => hp (h ▸ List.mem_cons_self c rest)
    rw [splitSlash_cons, if_neg hc, ih (fun h => hp (List.mem_cons_of_mem c h))]

/-- Splitting past a leading slash-free chunk peels it off. -/
theorem splitSlash_append_slash (xs ys : List Char) (hxs : '/' ∉ xs) :
    splitSlash (xs ++ '/' :: ys) = xs :: splitSlash ys := by
  induction xs with
  | nil => rw [List.nil_append, splitSlash_cons, if_pos rfl]
  | cons c xs ih =>
    have hc : c ≠ '/' := fun h => hxs (h ▸ List.mem_cons_self c xs)
    rw [List.cons_append, splitSlash_cons, if_neg hc,
      ih (fun h => hxs (List.mem_cons_of_mem c h))]

/-- Unfolding equation for `joinSlash` on a cons with a non-empty tail. -/
theorem joinSlash_cons_of_ne_nil (p : List Char) (ps : List (List Char))
    (h : ps ≠ []) : joinSlash (p :: ps) = p ++ '/' :: joinSlash ps := by
  cases ps with
  | nil => exact absurd rfl h
  | cons q qs => rfl

/-- `joinSlash` distributes over append of non-empty component lists. -/
theorem joinSlash_append (xs ys : List (List Char)) (hx : xs ≠ []) (hy : ys ≠ []) :
    joinSlash (xs ++ ys) = joinSlash xs ++ '/' :: joinSlash ys := by
  induction xs with
  | nil => exact absurd rfl hx
  | cons p xs ih =>
    cases xs with
    | nil =>
      rw [List.singleton_append, joinSlash_cons_of_ne_nil p ys hy]
      exact rfl
    | cons q qs =>
      rw [List.cons_append, joinSlash_cons_of_ne_nil p ((q :: qs) ++ ys) (by simp),
        joinSlash_cons_of_ne_nil p (q :: qs) (by simp), ih (by simp)]
      simp

/-- Round trip: splitting a join of non-empty slash-free components recovers
them. -/
theorem splitSlash_joinSlash (ps : List (List Char)) (hne : ps ≠ [])
    (hp : ∀ p ∈ ps, '/' ∉ p) : splitSlash (joinSlash ps) = ps := by
  induction ps with
  | nil => exact absurd rfl hne
  | cons p ps ih =>
    cases ps with
    | nil => exact splitSlash_no_slash p (hp p (List.mem_cons_self p []))
    | cons q qs =>
      rw [joinSlash_cons_of_ne_nil p (q :: qs) (by simp),
        splitSlash_append_slash p _ (hp p (List.mem_cons_self _ _)),
        ih (by simp) (fun x hx => hp x (List.mem_cons_of_mem _ hx))]

/-- Unfolding equation for `rfindDot` on a cons. -/
theorem rfindDot_cons (c : Char) (rest : List Char) :
    rfindDot (c :: rest) = match rfindDot rest with
      | some i => some (i + 1)
      | none => if c = '.' then some 0 else none := rfl

/-- A dot-free name has no last dot. -/
theorem rfindDot_of_no_dot (l : List Char) (h : '.' ∉ l) : rfindDot l = none := by
  induction l with
  | nil => rfl
  | cons c rest ih =>
    have hc : c ≠ '.' := fun hc => h (hc ▸ List.mem_cons_self _ _)
    rw [rfindDot_cons, ih (fun hm => h (List.mem_cons_of_mem _ hm))]
    simp [hc]

/-- The last dot of `xs ++ '.' :: e`, with `e` dot-free, is at index
`xs.length`. -/
theorem rfindDot_append_dot (xs e : List Char) (he : '.' ∉ e) :
    rfindDot (xs ++ '.' :: e) = some xs.length := by
  induction xs with
  | nil =>
    rw [List.nil_append, rfindDot_cons, rfindDot_of_no_dot e he]
    simp
  | cons c xs ih =>
    rw [List.cons_append, rfindDot_cons, ih]
    exact rfl

/-- `stem`/`suffix` of a dot-free name: no split. -/
theorem stemSuffix_no_dot (name : List Char) (h : '.' ∉ name) :
    stemSuffix name = (name, []) := by
  unfold stemSuffix
  rw [rfindDot_of_no_dot name h]

/-- `stem`/`suffix` of `stem ++ '.' :: e` with non-empty `stem`, non-empty
dot-free `e`: splits at the dot. -/
theorem stemSuffix_ext (stem e : List Char) (hstem : stem ≠ []) (he : e ≠ [])
    (hed : '.' ∉ e) : stemSuffix (stem ++ '.' :: e) = (stem, '.' :: e) := by
  have h2 : stem.length < (stem ++ '.' :: e).length - 1 := by
    have he' : 0 < e.length := List.length_pos.mpr he
    simp only [List.length_append, List.length_cons]
    omega
  unfold stemSuffix
  rw [rfindDot_append_dot stem e hed]
  show (if 0 < stem.length ∧ stem.length < (stem ++ '.' :: e).length - 1 then
      ((stem ++ '.' :: e).take stem.length, (stem ++ '.' :: e).drop stem.length)
    else (stem ++ '.' :: e, [])) = (stem, '.' :: e)
  rw [if_pos ⟨List.length_pos.mpr hstem, h2⟩, List.take_left, List.drop_left]

/-- `pathlibParts` of a join of clean components recovers them. -/
theorem pathlibParts_joinSlash (qs : List (List Char)) (hne : qs ≠ [])
    (hq : ∀ p ∈ qs, p ≠ [] ∧ p ≠ ['.'] ∧ '/' ∉ p) :
    pathlibParts (joinSlash qs) = qs := by
  unfold pathlibParts
  rw [splitSlash_joinSlash qs hne (fun p hp => (hq p hp).2.2),
    List.filter_eq_self]
  intro p hp
  have h := hq p hp
  simp [h.1, h.2.1]

/-- `pathlibParts` of one clean component. -/
theorem pathlibParts_single (p : List Char) (h1 : p ≠ []) (h2 : p ≠ ['.'])
    (h3 : '/' ∉ p) : pathlibParts p = [p] :=
  pathlibParts_joinSlash [p] (by simp) (by simpa using ⟨h1, h2, h3⟩)

/-! ## Claim theorems -/

/-- C2: for every decodable input mask (of arbitrary gray values) and every
positive target size, every pixel of the array returned by
`resize_binary_mask_cv2` is 0 or 255. -/
theorem C2_resample_binary_closure (m : GrayMat) (tw th : Int) (out : GrayMat)
    (hok : resize_binary_mask_cv2 (some m) tw th = .ok out) :
    ∀ r c, r < out.h → c < out.w → out.px r c = 0 ∨ out.px r c = 255 := by
  have hok' : (if tw ≤ 0 ∨ th ≤ 0 then
        (.error .invalidDimensions : Except ResizeError GrayMat)
      else .ok (resizeNearest (cvThreshold127 m) tw.toNat th.toNat)) = .ok out := hok
  split at hok'
  · cases hok'
  · injection hok' with h
    subst h
    intro r c _ _
    exact resizeNearest_threshold_px m _ _ r c

/-- C2 witness: the resampler applied to the gray (non-binary) 2×2
`demoGray` at target size 2×2 yields a binary pixel at (0,0). -/
theorem C2_resample_binary_closure_witness :
    (resizeNearest (cvThreshold127 demoGray) 2 2).px 0 0 = 0 ∨
      (resizeNearest (cvThreshold127 demoGray) 2 2).px 0 0 = 255 :=
  C2_resample_binary_closure demoGray 2 2
    (resizeNearest (cvThreshold127 demoGray) 2 2) rfl 0 0 (by decide) (by decide)

/-- C3: `resize_binary_mask_cv2` signals `SourceUnreadable` when the mask
cannot be decoded, and `InvalidDimensions` when a target dimension is ≤ 0
(the input being decodable). -/
theorem C3_resample_error_signalling :
    (∀ tw th : Int,
      resize_binary_mask_cv2 none tw th = .error .sourceUnreadable) ∧
    (∀ (m : GrayMat) (tw th : Int), tw ≤ 0 ∨ th ≤ 0 →
      resize_binary_mask_cv2 (some m) tw th = .error .invalidDimensions) := by
  constructor
  · intro tw th
    rfl
  · intro m tw th h
    show (if tw ≤ 0 ∨ th ≤ 0 then
        (.error .invalidDimensions : Except ResizeError GrayMat)
      else .ok (resizeNearest (cvThreshold127 m) tw.toNat th.toNat)) =
        .error .invalidDimensions
    rw [if_pos h]

/-- C3 witness: an undecodable mask at size 4×4, and a decodable mask at the
invalid size 0×5. -/
theorem C3_resample_error_signalling_witness :
    resize_binary_mask_cv2 none 4 4 = .error .sourceUnreadable ∧
    resize_binary_mask_cv2 (some demoGray) 0 5 = .error .invalidDimensions :=
  ⟨C3_resample_error_signalling.1 4 4,
   C3_resample_error_signalling.2 demoGray 0 5 (Or.inl (by decide))⟩

/-- C10: every pixel of the colorized output equals either the `color`
triple or the corresponding input-image pixel — never a blend. -/
theorem C10_colorize_pixel_dichotomy (image : ColorMat) (mask : GrayMat)
    (color : Nat × Nat × Nat) :
    ∀ r c, (apply_mask_and_colorize image mask color).px r c = color ∨
      (apply_mask_and_colorize image mask color).px r c = image.px r c := by
  intro r c
  rw [apply_mask_and_colorize_px]
  split
  · exact Or.inr (if_neg (by norm_num))
  · exact Or.inl (if_pos (by norm_num))

/-- C9: the verifier sweeps exactly the thresholds {0,1,127,128,254,255},
and on identical decode results reports zero pixel mismatches, zero
boolean-cast mismatches, and zero differently-classified pixels at every
swept threshold. -/
theorem C9_verifier_sweep_and_zero_diffs :
    sweep_thresholds = [0, 1, 127, 128, 254, 255] ∧
    ∀ a b : GrayMat, a.h = b.h → a.w = b.w →
      (∀ r < a.h, ∀ c < a.w, a.px r c = b.px r c) →
      pixel_diff_count a b = 0 ∧ bool_diff_count a b = 0 ∧
        ∀ t ∈ sweep_thresholds, thresh_diff_count t a b = 0 := by
  refine ⟨rfl, ?_⟩
  intro a b _ _ hpx
  refine ⟨?_, ?_, ?_⟩
  · exact countMismatch_eq_zero _ _ _ (fun r hr c hc => by simp [hpx r hr c hc])
  · exact countMismatch_eq_zero _ _ _ (fun r hr c hc => by simp [hpx r hr c hc])
  · intro t _
    exact countMismatch_eq_zero _ _ _ (fun r hr c hc => by simp [hpx r hr c hc])

/-- C9 witness: the verifier's counts on `demoGray` compared against itself,
at the swept threshold 127 among others. -/
theorem C9_verifier_sweep_and_zero_diffs_witness :
    pixel_diff_count demoGray demoGray = 0 ∧
    bool_diff_count demoGray demoGray = 0 ∧
    thresh_diff_count 127 demoGray demoGray = 0 :=
  ⟨(C9_verifier_sweep_and_zero_diffs.2 demoGray demoGray rfl rfl
      (fun _ _ _ _ => rfl)).1,
   (C9_verifier_sweep_and_zero_diffs.2 demoGray demoGray rfl rfl
      (fun _ _ _ _ => rfl)).2.1,
   (C9_verifier_sweep_and_zero_diffs.2 demoGray demoGray rfl rfl
      (fun _ _ _ _ => rfl)).2.2 127 (by decide)⟩

/-- C1 (code-bug evidence): the tier synthesizer resamples the raw source
mask without the mandated binarization (`mask-generator.py` has the
threshold step commented out), so a source mask holding the intermediate
value 64 produces a written per-tier mask file whose pixel is 64 — not in
{0, 255}. -/
theorem C1_tier_mask_not_binarized :
    (processTier ⟨1, 1, fun _ _ => 64⟩ [("shot.png", ImgRead.ok 1 1)]).1.map
        (fun p => p.2.px 0 0) = [64] ∧
    ¬((64 : Nat) = 0 ∨ (64 : Nat) = 255) :=
  ⟨rfl, by decide⟩

/-- C4 counterexample: with an unreadable image first in a tier, the loop
aborts with that image's error and writes no mask at all — the readable
image after it is not processed, contradicting the claimed skip-and-continue
policy. -/
theorem C4_counterexample_no_skip :
    (processTier ⟨1, 1, fun _ _ => 255⟩
        [("bad.jpg", ImgRead.unreadable), ("good.jpg", ImgRead.ok 1 1)]).1 = [] ∧
    (processTier ⟨1, 1, fun _ _ => 255⟩
        [("bad.jpg", ImgRead.unreadable), ("good.jpg", ImgRead.ok 1 1)]).2 =
      some "bad.jpg" :=
  ⟨rfl, rfl⟩

/-- C4 amended: an unreadable image aborts the whole tier run at that image
(no per-file handling): exactly the images before it are written, the abort
carries the failing filename, and everything after it is never processed. -/
theorem C4_abort_on_first_unreadable (mask : GrayMat)
    (pre : List (String × ImgRead))
    (hpre : ∀ p ∈ pre, p.2 ≠ ImgRead.unreadable)
    (name : String) (rest : List (String × ImgRead)) :
    (processTier mask (pre ++ (name, ImgRead.unreadable) :: rest)).2 = some name ∧
    (processTier mask (pre ++ (name, ImgRead.unreadable) :: rest)).1.map Prod.fst =
      pre.map Prod.fst := by
  induction pre with
  | nil => exact ⟨rfl, rfl⟩
  | cons p pre ih =>
    obtain ⟨n, read⟩ := p
    cases read with
    | unreadable =>
      exact absurd rfl (hpre (n, ImgRead.unreadable) (List.mem_cons_self _ _))
    | ok w h =>
      have ih' := ih (fun q hq => hpre q (List.mem_cons_of_mem _ hq))
      constructor
      · simpa [processTier] using ih'.1
      · simpa [processTier] using ih'.2

/-- C4 witness: one readable image, then an unreadable one, then another
readable one: only the first is written, and the run aborts at the second. -/
theorem C4_abort_on_first_unreadable_witness :
    (processTier demoGray ([("a.jpg", ImgRead.ok 1 1)] ++
        ("bad.jpg", ImgRead.unreadable) :: [("c.jpg", ImgRead.ok 2 2)])).2 =
      some "bad.jpg" ∧
    (processTier demoGray ([("a.jpg", ImgRead.ok 1 1)] ++
        ("bad.jpg", ImgRead.unreadable) :: [("c.jpg", ImgRead.ok 2 2)])).1.map
        Prod.fst = ["a.jpg"] :=
  C4_abort_on_first_unreadable demoGray [("a.jpg", ImgRead.ok 1 1)] (by decide)
    "bad.jpg" [("c.jpg", ImgRead.ok 2 2)]

/-- C5 counterexample: the spec's case-insensitive rule accepts `X.JPG` and
`X.PNG`, but the synthesizer's glob patterns are byte-exact: neither file is
enumerated, so neither receives a derived mask. -/
theorem C5_counterexample_uppercase_skipped :
    image_files ["X.JPG", "X.PNG", "y.jpg"] = ["y.jpg"] ∧
    specTierImageMatch "X.JPG" = true ∧ specTierImageMatch "X.PNG" = true ∧
    tierImageMatch "X.JPG" = false ∧ tierImageMatch "X.PNG" = false := by
  refine ⟨?_, ?_, ?_, ?_, ?_⟩ <;> decide

/-- C5 amended: the synthesizer enumerates exactly the non-hidden files of
the listing whose name ends in the exact lowercase `.jpg`, `.png` or `.jpeg`
(case-sensitively); uppercase-extension files are skipped. -/
theorem C5_enumeration_exact_lowercase (listing : List String) (name : String) :
    name ∈ image_files listing ↔ name ∈ listing ∧ tierImageMatch name = true := by
  unfold image_files tierImageMatch
  simp only [List.mem_append, List.mem_filter, Bool.or_eq_true]
  tauto

/-- C8 counterexample: on a valid manifest that merely lacks the `frames`
key, the operation completes normally and the written output document equals
the input — no `ManifestMalformed` error is signalled and the write is not
suppressed. -/
theorem C8_counterexample_no_abort :
    add_mask_paths_to_transforms framelessManifest "mask" "_mask" =
      framelessManifest := rfl

/-- C8 amended: a manifest without a `frames` key is processed as having an
empty frame list: the operation signals nothing and writes the document
unchanged (no `frames` key is added). -/
theorem C8_missing_frames_written_unchanged (rest : List (String × String))
    (mask_dir mask_suffix : String) :
    add_mask_paths_to_transforms ⟨none, rest⟩ mask_dir mask_suffix =
      ⟨none, rest⟩ := rfl

/-- C6: `apply_mask_and_colorize` with an entirely-foreground (255) mask
returns the input image unchanged, and with an entirely-background (0) mask
returns an image every pixel of which is the `color` triple (output
dimensions equal the image's in both cases). -/
theorem C6_colorize_inversion (image : ColorMat) (mask : GrayMat)
    (color : Nat × Nat × Nat) (hh : 0 < mask.h) (hw : 0 < mask.w) :
    (apply_mask_and_colorize image mask color).h = image.h ∧
    (apply_mask_and_colorize image mask color).w = image.w ∧
    ((∀ r < mask.h, ∀ c < mask.w, mask.px r c = 255) →
      ∀ r < image.h, ∀ c < image.w,
        (apply_mask_and_colorize image mask color).px r c = image.px r c) ∧
    ((∀ r < mask.h, ∀ c < mask.w, mask.px r c = 0) →
      ∀ r < image.h, ∀ c < image.w,
        (apply_mask_and_colorize image mask color).px r c = color) := by
  refine ⟨rfl, rfl, ?_, ?_⟩
  · intro hfg r hr c hc
    obtain ⟨i, j, hi, hj, heq⟩ := resizeToImage_px_mem image mask hh hw r c hr hc
    rw [apply_mask_and_colorize_px, heq, hfg i hi j hj]
    norm_num
  · intro hbg r hr c hc
    obtain ⟨i, j, hi, hj, heq⟩ := resizeToImage_px_mem image mask hh hw r c hr hc
    rw [apply_mask_and_colorize_px, heq, hbg i hi j hj]
    norm_num

/-- C7: on any frame whose `file_path` has the canonical form
`<parent>/<stem><ext>` (parent a non-empty chain of clean components, `ext`
either empty — with a dot-free stem — or a single dot-extension), the derived
`mask_path` is exactly `<parent>/<mask_dir>/<stem><mask_suffix><ext>`, a pure
string transform; and a frame lacking `file_path` is returned untouched,
while a frame having one gets exactly its `mask_path` field set. -/
theorem C7_derive_paths
    (ps : List (List Char)) (stem ext dirL sufL : List Char)
    (hps : ps ≠ []) (hgood : ∀ p ∈ ps, p ≠ [] ∧ p ≠ ['.'] ∧ '/' ∉ p)
    (hstem : stem ≠ []) (hstem_sl : '/' ∉ stem) (hsuf_sl : '/' ∉ sufL)
    (hdir : dirL ≠ []) (hdir_dot : dirL ≠ ['.']) (hdir_sl : '/' ∉ dirL)
    (hext : (ext = [] ∧ '.' ∉ stem) ∨
      ∃ e, ext = '.' :: e ∧ e ≠ [] ∧ '.' ∉ e ∧ '/' ∉ e) :
    deriveMaskPath (String.mk (joinSlash ps ++ '/' :: (stem ++ ext)))
        (String.mk dirL) (String.mk sufL) =
      String.mk (joinSlash ps ++ '/' :: (dirL ++ '/' :: (stem ++ sufL ++ ext))) ∧
    (∀ (mask_dir mask_suffix : String) (frame : Frame),
      frame.file_path = none →
        addMaskPathToFrame mask_dir mask_suffix frame = frame) ∧
    (∀ (mask_dir mask_suffix : String) (frame : Frame) (fp : String),
      frame.file_path = some fp →
        addMaskPathToFrame mask_dir mask_suffix frame =
          { frame with mask_path := some (deriveMaskPath fp mask_dir mask_suffix) }) := by
  refine ⟨?_, ?_, ?_⟩
  · have hx_sl : '/' ∉ stem ++ ext := by
      intro hmem
      rcases List.mem_append.mp hmem with h | h
      · exact hstem_sl h
      · rcases hext with ⟨he, _⟩ | ⟨e, he, _, _, hesl⟩
        · rw [he] at h
          exact absurd h (List.not_mem_nil _)
        · rw [he] at h
          rcases List.mem_cons.mp h with h | h
          · exact absurd h (by decide)
          · exact hesl h
    have hx_ne : stem ++ ext ≠ [] := fun h =>
      hstem (List.append_eq_nil.mp h).1
    have hx_dot : stem ++ ext ≠ ['.'] := by
      intro h
      rcases hext with ⟨he, hnd⟩ | ⟨e, he, hene, _, _⟩
      · rw [he, List.append_nil] at h
        exact hnd (h ▸ List.mem_cons_self _ _)
      · have h1 : 0 < stem.length := List.length_pos.mpr hstem
        have h2 : 0 < e.length := List.length_pos.mpr hene
        have hl := congrArg List.length h
        rw [he] at hl
        simp only [List.length_append, List.length_cons, List.length_nil] at hl
        omega
    have hnn_ne : (stem ++ sufL) ++ ext ≠ [] := fun h =>
      hstem (List.append_eq_nil.mp (List.append_eq_nil.mp h).1).1
    have hnn_sl : '/' ∉ (stem ++ sufL) ++ ext := by
      intro hmem
      rcases List.mem_append.mp hmem with h | h
      · rcases List.mem_append.mp h with h | h
        · exact hstem_sl h
        · exact hsuf_sl h
      · rcases hext with ⟨he, _⟩ | ⟨e, he, _, _, hesl⟩
        · rw [he] at h
          exact absurd h (List.not_mem_nil _)
        · rw [he] at h
          rcases List.mem_cons.mp h with h | h
          · exact absurd h (by decide)
          · exact hesl h
    have hnn_dot : (stem ++ sufL) ++ ext ≠ ['.'] := by
      intro h
      rcases hext with ⟨he, hnd⟩ | ⟨e, he, hene, _, _⟩
      · rw [he, List.append_nil] at h
        cases stem with
        | nil => exact hstem rfl
        | cons c stem' =>
          rw [List.cons_append] at h
          injection h with hc ht
          rw [List.append_eq_nil] at ht
          apply hnd
          rw [hc]
          exact List.mem_cons_self _ _
      · have h1 : 0 < stem.length := List.length_pos.mpr hstem
        have hl := congrArg List.length h
        rw [he] at hl
        simp only [List.length_append, List.length_cons, List.length_nil] at hl
        omega
    have hfile_eq : joinSlash (ps ++ [stem ++ ext]) =
        joinSlash ps ++ '/' :: (stem ++ ext) := by
      rw [joinSlash_append ps [stem ++ ext] hps (by simp)]
      exact rfl
    have hparts : pathlibParts (joinSlash ps ++ '/' :: (stem ++ ext)) =
        ps ++ [stem ++ ext] := by
      rw [← hfile_eq]
      refine pathlibParts_joinSlash _ (by simp) ?_
      intro p hp
      rcases List.mem_append.mp hp with h | h
      · exact hgood p h
      · rw [List.mem_singleton] at h
        subst h
        exact ⟨hx_ne, hx_dot, hx_sl⟩
    have hss : stemSuffix (stem ++ ext) = (stem, ext) := by
      rcases hext with ⟨he, hnd⟩ | ⟨e, he, hene, hed, _⟩
      · subst he
        rw [List.append_nil]
        exact stemSuffix_no_dot stem hnd
      · subst he
        exact stemSuffix_ext stem e hstem hene hed
    have hdirp : pathlibParts dirL = [dirL] :=
      pathlibParts_single dirL hdir hdir_dot hdir_sl
    have hnnp : pathlibParts ((stem ++ sufL) ++ ext) = [(stem ++ sufL) ++ ext] :=
      pathlibParts_single _ hnn_ne hnn_dot hnn_sl
    have habs : ¬(joinSlash ps ++ '/' :: (stem ++ ext)).head? = some '/' := by
      obtain ⟨p₀, ps', rfl⟩ : ∃ p₀ ps', ps = p₀ :: ps' := by
        cases ps with
        | nil => exact absurd rfl hps
        | cons a l => exact ⟨a, l, rfl⟩
      obtain ⟨c, p₀', rfl⟩ : ∃ c p₀', p₀ = c :: p₀' := by
        have h := (hgood _ (List.mem_cons_self _ _)).1
        cases p₀ with
        | nil => exact absurd rfl h
        | cons a l => exact ⟨a, l, rfl⟩
      have hc : c ≠ '/' := fun h =>
        (hgood _ (List.mem_cons_self _ _)).2.2 (h ▸ List.mem_cons_self _ _)
      cases ps' with
      | nil =>
        show ¬((c :: p₀') ++ '/' :: (stem ++ ext)).head? = some '/'
        simpa using hc
      | cons q qs =>
        rw [joinSlash_cons_of_ne_nil _ _ (by simp)]
        simpa using hc
    show String.mk (deriveList (joinSlash ps ++ '/' :: (stem ++ ext)) dirL sufL) = _
    refine congrArg String.mk ?_
    unfold deriveList
    rw [if_neg habs]
    unfold deriveBody
    rw [hparts, List.getLast?_concat, List.dropLast_concat]
    simp only [Option.getD_some]
    rw [hss]
    dsimp only
    rw [hdirp, hnnp, List.append_assoc,
      joinSlash_append ps ([dirL] ++ [(stem ++ sufL) ++ ext]) hps (by simp)]
    exact rfl
  · intro mask_dir mask_suffix frame hfp
    unfold addMaskPathToFrame
    rw [hfp]
  · intro mask_dir mask_suffix frame fp hfp
    unfold addMaskPathToFrame
    rw [hfp]

/-- C7 witness: the spec's two worked examples of the path transform, and a
frame without `file_path` left untouched. -/
theorem C7_derive_paths_witness :
    deriveMaskPath "images/shot001.JPG" "mask" "_mask" =
      "images/mask/shot001_mask.JPG" ∧
    deriveMaskPath "a/b/img.png" "m" "-msk" = "a/b/m/img-msk.png" ∧
    addMaskPathToFrame "mask" "_mask" ⟨none, none, [("transform_matrix", "I")]⟩ =
      ⟨none, none, [("transform_matrix", "I")]⟩ := by
  refine ⟨?_, ?_, ?_⟩
  · exact (C7_derive_paths ["images".data] "shot001".data ".JPG".data
      "mask".data "_mask".data (by decide) (by decide) (by decide) (by decide)
      (by decide) (by decide) (by decide) (by decide)
      (Or.inr ⟨"JPG".data, rfl, by decide, by decide, by decide⟩)).1
  · exact (C7_derive_paths ["a".data, "b".data] "img".data ".png".data
      "m".data "-msk".data (by decide) (by decide) (by decide) (by decide)
      (by decide) (by decide) (by decide) (by decide)
      (Or.inr ⟨"png".data, rfl, by decide, by decide, by decide⟩)).1
  · exact (C7_derive_paths ["x".data] "y".data [] "d".data "s".data
      (by decide) (by decide) (by decide) (by decide) (by decide) (by decide)
      (by decide) (by decide) (Or.inl ⟨rfl, by decide⟩)).2.1 "mask" "_mask"
      ⟨none, none, [("transform_matrix", "I")]⟩ rfl

/-- C6 witness: on the 1×1 `demoImage`, the all-foreground mask leaves the
pixel `(7,8,9)` unchanged, and the all-background mask paints it with the
default red `(0,0,255)`. -/
theorem C6_colorize_inversion_witness :
    (apply_mask_and_colorize demoImage allFg (0, 0, 255)).px 0 0 =
      demoImage.px 0 0 ∧
    (apply_mask_and_colorize demoImage allBg (0, 0, 255)).px 0 0 = (0, 0, 255) :=
  ⟨(C6_colorize_inversion demoImage allFg (0, 0, 255) (by decide)
      (by decide)).2.2.1 (fun _ _ _ _ => rfl) 0 (by decide) 0 (by decide),
   (C6_colorize_inversion demoImage allBg (0, 0, 255) (by decide)
      (by decide)).2.2.2 (fun _ _ _ _ => rfl) 0 (by decide) 0 (by decide)⟩
